import Mathlib

/-!
Verification of core properties of the talc voxel engine.

The Rust source is shallowly embedded: machine integers are modelled by
`Nat`/`Int` (with explicit `% 2^w` where u32/u64 wrap-around matters),
dense `Box<[T]>` voxel arrays are modelled as index functions `Nat → T`,
`HashMap` world maps as functions into `Option`, and fallible
constructors return `Option`.  Names follow the Rust source
(`src/chunky/chunk.rs`, `src/chunky/chunks_refs.rs`,
`src/chunky/greedy_mesher_optimized.rs`, `src/chunky/async_chunkloader.rs`,
`src/face_direction.rs`, `src/render/chunk_material.rs`, `src/chunk.rs`).
-/

namespace Talc

/-- `bevy::math::IVec3`: a triple of integers (i32 modelled as `Int`). -/
structure IVec3 where
  x : Int
  y : Int
  z : Int
deriving DecidableEq

instance : Add IVec3 := ⟨fun a b => ⟨a.x + b.x, a.y + b.y, a.z + b.z⟩⟩

/-- `IVec3::distance_squared` (squared Euclidean distance). -/
def IVec3.distance_squared (a b : IVec3) : Int :=
  (a.x - b.x) * (a.x - b.x) + (a.y - b.y) * (a.y - b.y) + (a.z - b.z) * (a.z - b.z)

/-- `position.rs`: `ChunkPosition` wraps an `IVec3`; we identify the wrapper
with its payload. -/
abbrev ChunkPosition := IVec3

/-- `position.rs`: `RelativePosition` (grid position relative to a chunk). -/
abbrev RelativePosition := IVec3

/-- `chunk.rs`: `CHUNK_SIZE` (side length of a cubic chunk). -/
def CHUNK_SIZE : Nat := 32

/-- `chunk.rs`: `CHUNK_SIZE_P = CHUNK_SIZE + 2` (padded side length). -/
def CHUNK_SIZE_P : Nat := CHUNK_SIZE + 2

/-- `chunk.rs`: `CHUNK_SIZE3 = CHUNK_SIZE^3` (voxels per chunk). -/
def CHUNK_SIZE3 : Nat := CHUNK_SIZE * CHUNK_SIZE * CHUNK_SIZE

/-- `mod_manager/prototypes.rs`: `BlockPrototype` (the fields consumed by the
chunk store and the mesher; `name` and `color` are irrelevant to the claims).
In Rust, equality of `&'static BlockPrototype` is pointer equality; since the
registry holds one prototype per id, this coincides with structural equality
here. -/
structure BlockPrototype where
  id : Nat
  is_transparent : Bool
  is_meshable : Bool
deriving DecidableEq

/-- `chunk.rs` `VoxelIndex::new`: flatten local coordinates, x fastest.
The source asserts `x, y, z < CHUNK_SIZE`; callers respect this. -/
def VoxelIndex.new (x y z : Nat) : Nat :=
  x + y * CHUNK_SIZE + z * CHUNK_SIZE * CHUNK_SIZE

/-- `chunk.rs` `From<VoxelIndex> for RelativePosition`: unflatten an index
into `(x, y, z)` local coordinates (x fastest, z slowest). -/
def voxelIndexToCoords (i : Nat) : Nat × Nat × Nat :=
  (i % CHUNK_SIZE, (i / CHUNK_SIZE) % CHUNK_SIZE, i / (CHUNK_SIZE * CHUNK_SIZE))

/-- `chunk.rs` `enum Voxels`: a chunk's storage is either one uniform value or
a dense `CHUNK_SIZE3` array; the array is modelled as an index function. -/
inductive Voxels where
  | Heterogeneous (voxels : Nat → BlockPrototype)
  | Homogeneous (block : BlockPrototype)

/-- `chunk.rs` `ChunkData` (the chunk store; the `position` field of the
chunky variant plays no role in the claims). -/
structure ChunkData where
  voxels : Voxels

/-- `ChunkData::get_block`. -/
def ChunkData.get_block (c : ChunkData) (index : Nat) : BlockPrototype :=
  match c.voxels with
  | .Homogeneous b => b
  | .Heterogeneous v => v index

/-- `ChunkData::is_homogenous` (spelling as in the source). -/
def ChunkData.is_homogenous (c : ChunkData) : Bool :=
  match c.voxels with
  | .Homogeneous _ => true
  | .Heterogeneous _ => false

/-- `src/chunk.rs` `ChunkData::set_block`: a write to a Homogeneous store
allocates a full array of the old value and applies the write; a write to a
Heterogeneous store applies the write and then re-scans the whole chunk,
collapsing to Homogeneous when every voxel equals the written value. -/
def ChunkData.set_block (c : ChunkData) (index : Nat) (block_type : BlockPrototype) :
    ChunkData :=
  match c.voxels with
  | .Homogeneous old =>
      ⟨.Heterogeneous (fun j => if j = index then block_type else old)⟩
  | .Heterogeneous v =>
      let v' := fun j => if j = index then block_type else v j
      if ∀ j < CHUNK_SIZE3, v' j = block_type then ⟨.Homogeneous block_type⟩
      else ⟨.Heterogeneous v'⟩

/-- Apply a sequence of `set_block` calls (a batch of edits). -/
def ChunkData.applyEdits (c : ChunkData) (edits : List (Nat × BlockPrototype)) : ChunkData :=
  edits.foldl (fun acc e => acc.set_block e.1 e.2) c

/-- A full scan of the chunk shows all `CHUNK_SIZE3` voxels equal. -/
def scanUniform (c : ChunkData) : Prop :=
  ∀ j < CHUNK_SIZE3, c.get_block j = c.get_block 0

/-- The air prototype (id 0, transparent), as registered by the lua data. -/
def airBlock : BlockPrototype := ⟨0, true, false⟩

/-- The grass prototype (id 1, opaque). -/
def grassBlock : BlockPrototype := ⟨1, false, true⟩

/-- A chunk that is Homogeneous air. -/
def airChunk : ChunkData := ⟨.Homogeneous airBlock⟩

/-- C3: for local coordinates `(x,y,z)` each below 32, flattening to
`x + y·32 + z·32²` and unflattening returns exactly `(x,y,z)`; and for every
flat index `i < 32³`, unflattening and re-flattening returns `i`
(x varies fastest, z slowest). -/
theorem c3_voxel_index_round_trip :
    (∀ x y z : Nat, x < CHUNK_SIZE → y < CHUNK_SIZE → z < CHUNK_SIZE →
      voxelIndexToCoords (VoxelIndex.new x y z) = (x, y, z)) ∧
    (∀ i : Nat, i < CHUNK_SIZE3 →
      (VoxelIndex.new (voxelIndexToCoords i).1 (voxelIndexToCoords i).2.1
        (voxelIndexToCoords i).2.2) = i) := by
  constructor
  · intro x y z hx hy hz
    simp only [voxelIndexToCoords, VoxelIndex.new, CHUNK_SIZE] at *
    refine Prod.ext ?_ (Prod.ext ?_ ?_) <;> simp <;> omega
  · intro i hi
    simp only [voxelIndexToCoords, VoxelIndex.new, CHUNK_SIZE, CHUNK_SIZE3] at *
    omega

/-- Witness for C3 at concrete inputs. -/
theorem c3_voxel_index_round_trip_witness :
    voxelIndexToCoords (VoxelIndex.new 5 6 7) = (5, 6, 7) ∧
    VoxelIndex.new (voxelIndexToCoords 12345).1 (voxelIndexToCoords 12345).2.1
      (voxelIndexToCoords 12345).2.2 = 12345 :=
  ⟨c3_voxel_index_round_trip.1 5 6 7 (by decide) (by decide) (by decide),
   c3_voxel_index_round_trip.2 12345 (by decide)⟩

/-- C2 counterexample: writing the *same* value into a Homogeneous store
still expands it to Heterogeneous (the Homogeneous arm of `set_block` never
compares the written value with the stored one and never re-collapses), so
afterwards `is_homogenous()` is `false` although a full scan shows all
voxels equal.  This falsifies the claimed iff, and with it "expands ... only
on the first write of a differing value". -/
theorem c2_homogeneity_iff_counterexample :
    (airChunk.set_block 0 airBlock).is_homogenous = false ∧
    scanUniform (airChunk.set_block 0 airBlock) := by
  constructor
  · rfl
  · intro j _
    show (if j = 0 then airBlock else airBlock) = _
    split <;> rfl

/-- C2 (amended): a write to a Heterogeneous store collapses to Homogeneous
exactly when the post-write full scan shows every voxel equal to the written
value; any write to a Homogeneous store — even of the same value — expands
it to Heterogeneous (so `is_homogenous` can be `false` while all voxels are
equal); and `is_homogenous = true` always implies a full scan shows all
voxels equal. -/
theorem c2_homogeneity_amended (c : ChunkData) (index : Nat) (b : BlockPrototype) :
    (∀ v, c.voxels = .Heterogeneous v →
      ((c.set_block index b).is_homogenous = true ↔
        ∀ j < CHUNK_SIZE3, (c.set_block index b).get_block j = b)) ∧
    (∀ b0, c.voxels = .Homogeneous b0 →
      (c.set_block index b).is_homogenous = false) ∧
    (c.is_homogenous = true → scanUniform c) := by
  refine ⟨?_, ?_, ?_⟩
  · intro v hv
    simp only [ChunkData.set_block, hv]
    split
    · rename_i hall
      constructor
      · intro _ j hj
        simp [ChunkData.get_block]
      · intro _
        rfl
    · rename_i hall
      constructor
      · intro h
        simp [ChunkData.is_homogenous] at h
      · intro h
        exact absurd (fun j hj => by simpa [ChunkData.get_block] using h j hj) hall
  · intro b0 hb0
    simp [ChunkData.set_block, hb0, ChunkData.is_homogenous]
  · intro h j _
    cases hc : c.voxels with
    | Homogeneous b1 => simp [ChunkData.get_block, hc]
    | Heterogeneous v => simp [ChunkData.is_homogenous, hc] at h

/-- Witness for C2's amended theorem at a concrete Heterogeneous store and a
concrete Homogeneous store. -/
theorem c2_homogeneity_amended_witness :
    (((⟨.Heterogeneous fun _ => grassBlock⟩ : ChunkData).set_block 3
        airBlock).is_homogenous = true ↔
      ∀ j < CHUNK_SIZE3,
        ((⟨.Heterogeneous fun _ => grassBlock⟩ : ChunkData).set_block 3
          airBlock).get_block j = airBlock) ∧
    ((airChunk.set_block 7 grassBlock).is_homogenous = false) :=
  ⟨(c2_homogeneity_amended ⟨.Heterogeneous fun _ => grassBlock⟩ 3 airBlock).1
      (fun _ => grassBlock) rfl,
   (c2_homogeneity_amended airChunk 7 grassBlock).2.1 airBlock rfl⟩

/-- `utils.rs` `index_to_ivec3_bounds` (x fastest, z slowest). -/
def index_to_ivec3_bounds (i bounds : Int) : IVec3 :=
  ⟨i % bounds, (i / bounds) % bounds, i / (bounds * bounds)⟩

/-- `async_chunkloader.rs` `Chunks`: the world map from chunk position to
shared chunk data; the `HashMap` is modelled as a function into `Option`. -/
def Chunks := ChunkPosition → Option ChunkData

/-- `chunky/chunks_refs.rs` `ChunkRefs`: the center chunk and its 26 Moore
neighbours (27 shared references) plus the center position. -/
structure ChunkRefs where
  adjacent_chunks : List ChunkData
  center_chunk_position : ChunkPosition

/-- The 27 sequential `get_chunk(i)?` lookups in `ChunkRefs::try_new`: every
lookup must succeed and the results are collected in order. -/
def optCollect (f : Nat → Option ChunkData) : List Nat → Option (List ChunkData)
  | [] => some []
  | i :: rest =>
    match f i with
    | none => none
    | some c => (optCollect f rest).map (c :: ·)

/-- `ChunkRefs::try_new`: fetch all 27 positions `center + offset(i)`,
`offset(i) = index_to_ivec3_bounds(i, 3) + NEG_ONE`; yield nothing if any is
absent. -/
def ChunkRefs.try_new (chunks : Chunks) (center_chunk_position : ChunkPosition) :
    Option ChunkRefs :=
  (optCollect
    (fun i => chunks (center_chunk_position + (index_to_ivec3_bounds i 3 + ⟨-1, -1, -1⟩)))
    (List.range 27)).map (fun l => ⟨l, center_chunk_position⟩)

theorem optCollect_eq_none_iff (f : Nat → Option ChunkData) (l : List Nat) :
    optCollect f l = none ↔ ∃ i ∈ l, f i = none := by
  induction l with
  | nil => simp [optCollect]
  | cons a l ih =>
    simp only [optCollect]
    cases hfa : f a with
    | none => simp [hfa]
    | some c => simp [hfa, Option.map_eq_none', ih]

theorem optCollect_length (f : Nat → Option ChunkData) (l : List Nat)
    (r : List ChunkData) (h : optCollect f l = some r) : r.length = l.length := by
  induction l generalizing r with
  | nil => simp [optCollect] at h; simp [← h]
  | cons a l ih =>
    simp only [optCollect] at h
    cases hfa : f a with
    | none => simp [hfa] at h
    | some c =>
      rw [hfa] at h
      cases hoc : optCollect f l with
      | none => simp [hoc] at h
      | some r' =>
        rw [hoc] at h
        simp only [Option.map_some', Option.some.injEq] at h
        simp [← h, ih r' hoc]

theorem optCollect_getD (f : Nat → Option ChunkData) (l : List Nat)
    (r : List ChunkData) (h : optCollect f l = some r) :
    ∀ k < l.length, f (l.getD k 0) = some (r.getD k airChunk) := by
  induction l generalizing r with
  | nil => simp
  | cons a l ih =>
    simp only [optCollect] at h
    cases hfa : f a with
    | none => simp [hfa] at h
    | some c =>
      rw [hfa] at h
      cases hoc : optCollect f l with
      | none => simp [hoc] at h
      | some r' =>
        rw [hoc] at h
        simp only [Option.map_some', Option.some.injEq] at h
        intro k hk
        cases k with
        | zero => simp [← h, hfa]
        | succ k' =>
          simp only [List.getD_cons_succ, ← h]
          exact ih r' hoc k' (by simpa using hk)

theorem neighbor_offsets_cover : ∀ i ∈ List.range 27,
    ∃ dx ∈ ([-1, 0, 1] : List Int), ∃ dy ∈ ([-1, 0, 1] : List Int),
      ∃ dz ∈ ([-1, 0, 1] : List Int),
        index_to_ivec3_bounds i 3 + ⟨-1, -1, -1⟩ = ⟨dx, dy, dz⟩ := by decide

theorem neighbor_offsets_onto :
    ∀ dx ∈ ([-1, 0, 1] : List Int), ∀ dy ∈ ([-1, 0, 1] : List Int),
      ∀ dz ∈ ([-1, 0, 1] : List Int),
        ∃ i ∈ List.range 27,
          index_to_ivec3_bounds i 3 + ⟨-1, -1, -1⟩ = ⟨dx, dy, dz⟩ := by decide

theorem range27_getD : ∀ k < 27, (List.range 27).getD k 0 = k := by decide

/-- C4: `try_new` returns nothing iff at least one of the 27 coordinates
`center + offset`, `offset ∈ {-1,0,1}³`, is absent from the world map; when
all 27 are present the view holds exactly those 27 chunks (in neighbour-slot
order), tagged with the center position. -/
theorem c4_neighborhood_completeness (chunks : Chunks) (c : ChunkPosition) :
    (ChunkRefs.try_new chunks c = none ↔
      ∃ dx ∈ ([-1, 0, 1] : List Int), ∃ dy ∈ ([-1, 0, 1] : List Int),
        ∃ dz ∈ ([-1, 0, 1] : List Int), chunks (c + ⟨dx, dy, dz⟩) = none) ∧
    (∀ refs, ChunkRefs.try_new chunks c = some refs →
      refs.center_chunk_position = c ∧ refs.adjacent_chunks.length = 27 ∧
      ∀ i : Nat, i < 27 → chunks (c + (index_to_ivec3_bounds i 3 + ⟨-1, -1, -1⟩)) =
        some (refs.adjacent_chunks.getD i airChunk)) := by
  constructor
  · rw [ChunkRefs.try_new, Option.map_eq_none', optCollect_eq_none_iff]
    constructor
    · rintro ⟨i, hi, hnone⟩
      obtain ⟨dx, hdx, dy, hdy, dz, hdz, heq⟩ := neighbor_offsets_cover i hi
      exact ⟨dx, hdx, dy, hdy, dz, hdz, by rw [← heq]; exact hnone⟩
    · rintro ⟨dx, hdx, dy, hdy, dz, hdz, hnone⟩
      obtain ⟨i, hi, heq⟩ := neighbor_offsets_onto dx hdx dy hdy dz hdz
      exact ⟨i, hi, by rw [heq]; exact hnone⟩
  · intro refs h
    rw [ChunkRefs.try_new] at h
    cases hoc : optCollect
        (fun i => chunks (c + (index_to_ivec3_bounds i 3 + ⟨-1, -1, -1⟩)))
        (List.range 27) with
    | none => rw [hoc] at h; simp at h
    | some l =>
      rw [hoc] at h
      simp only [Option.map_some', Option.some.injEq] at h
      refine ⟨by rw [← h], ?_, ?_⟩
      · rw [← h]
        simpa using optCollect_length _ _ _ hoc
      · intro i hi
        have := optCollect_getD _ _ _ hoc i (by simpa using hi)
        rw [range27_getD i hi] at this
        rw [← h]
        exact this

/-- A world map holding Homogeneous-air chunks everywhere. -/
def allAirMap : Chunks := fun _ => some airChunk

/-- Witness for C4 at a concrete map and center: construction succeeds and
returns the stored chunks. -/
theorem c4_neighborhood_completeness_witness :
    (⟨List.replicate 27 airChunk, (⟨0, 0, 0⟩ : IVec3)⟩ :
        ChunkRefs).center_chunk_position = ⟨0, 0, 0⟩ ∧
    (⟨List.replicate 27 airChunk, (⟨0, 0, 0⟩ : IVec3)⟩ :
        ChunkRefs).adjacent_chunks.length = 27 ∧
    ∀ i : Nat, i < 27 → allAirMap ((⟨0, 0, 0⟩ : IVec3) +
        (index_to_ivec3_bounds i 3 + ⟨-1, -1, -1⟩)) =
      some ((List.replicate 27 airChunk).getD i airChunk) :=
  (c4_neighborhood_completeness allAirMap ⟨0, 0, 0⟩).2
    ⟨List.replicate 27 airChunk, ⟨0, 0, 0⟩⟩ rfl

/-- `face_direction.rs` `FaceDir`. -/
inductive FaceDir where
  | Up
  | Down
  | Left
  | Right
  | Forward
  | Back
deriving DecidableEq

/-- `FaceDir::normal_index` (the 3-bit normal code packed for the shader). -/
def FaceDir.normal_index : FaceDir → Nat
  | .Left => 0
  | .Right => 1
  | .Down => 2
  | .Up => 3
  | .Forward => 4
  | .Back => 5

/-- `lod.rs` `Lod` (level of detail; the default is `L32`). -/
inductive Lod where
  | L32
  | L16
  | L8
  | L4
  | L2
deriving DecidableEq

/-- `Lod::size` (voxels per axis). -/
def Lod.size : Lod → Nat
  | .L32 => 32
  | .L16 => 16
  | .L8 => 8
  | .L4 => 4
  | .L2 => 2

/-- `FaceDir::world_to_sample`: remap `(axis, row, column)` plane coordinates
into final chunk-local coordinates for this face direction (the `_lod`
parameter is unused, as in the source). -/
def FaceDir.world_to_sample (f : FaceDir) (axis x y : Int) (_lod : Lod) : IVec3 :=
  match f with
  | .Up => ⟨x, axis + 1, y⟩
  | .Down => ⟨x, axis, y⟩
  | .Left => ⟨axis, y, x⟩
  | .Right => ⟨axis + 1, y, x⟩
  | .Forward => ⟨x, y, axis⟩
  | .Back => ⟨x, y, axis + 1⟩

/-- `render/chunk_material.rs` `PackedQuad`: one bit-packed quad. -/
structure PackedQuad where
  packed_u32 : Nat
deriving DecidableEq

/-- `PackedQuad::new`, faithful to the source *including* the
`let ao = 0; // todo` line that shadows the ambient-occlusion argument, and
the `min(31)` caps on the two stretch (extent) fields.  The `as u32` casts
of the position components are modelled by `Int.toNat` (the source
debug-asserts `0 ≤ c < 32`). -/
def PackedQuad.new (position : IVec3) (normal ao x_strech y_strech : Nat) : PackedQuad :=
  let ao := 0
  let x_strech := min x_strech 31
  let y_strech := min y_strech 31
  ⟨position.x.toNat |||
    (position.y.toNat <<< 5) |||
    (position.z.toNat <<< 10) |||
    (normal <<< 15) |||
    (ao <<< 18) |||
    (x_strech <<< 20) |||
    (y_strech <<< 25)⟩

/-- `render/chunk_material.rs` `ChunkMaterial`: the packed quads of one
meshed chunk, tagged with its chunk position. -/
structure ChunkMaterial where
  quads : List PackedQuad
  chunk_position : ChunkPosition
deriving DecidableEq

/-- C10 (evidence at the failing input): `PackedQuad::new` packs 5-bit
x/y/z at bits 0/5/10, the 3-bit normal at bit 15, the occlusion field at
bit 18 and the two extents — capped at 31 — at bits 20/25; but the
`let ao = 0; // todo` shadowing makes the occlusion bits of every packed
quad zero, so a quad packed with ambient-occlusion index 1 comes out with
occlusion field 0 instead of 1. -/
theorem c10_packed_quad_ao_dropped :
    (((PackedQuad.new ⟨3, 4, 5⟩ 2 1 7 9).packed_u32 >>> 18) &&& 3 = 0) ∧
    ((PackedQuad.new ⟨3, 4, 5⟩ 2 1 7 9).packed_u32 =
      3 ||| (4 <<< 5) ||| (5 <<< 10) ||| (2 <<< 15) ||| (7 <<< 20) ||| (9 <<< 25)) ∧
    (((PackedQuad.new ⟨0, 0, 0⟩ 0 0 40 40).packed_u32 >>> 20) &&& 31 = 31) := by
  refine ⟨by decide, by decide, by decide⟩

/-- `async_chunkloader.rs` `MAX_WORLDGEN_TASKS`. -/
def MAX_WORLDGEN_TASKS : Nat := 64

/-- `async_chunkloader.rs` `AsyncChunkloader` (the fields the claims are
about: the load/unload queues and the key set of the in-flight
world-generation task map). -/
structure AsyncChunkloader where
  load_chunk_queue : List ChunkPosition
  unload_chunk_queue : List ChunkPosition
  worldgen_tasks : List ChunkPosition

/-- The comparator of `get_chunks_to_load`'s `sort_by`: ascending squared
distance to the player's chunk position. -/
def distLe (player a b : ChunkPosition) : Bool :=
  a.distance_squared player ≤ b.distance_squared player

/-- `AsyncChunkloader::get_chunks_to_load`: compute
`tasks_left = max(min(MAX_WORLDGEN_TASKS - in_flight, queue_len), 0)`
(`Nat` subtraction already clamps at 0, exactly like the source's `.max(0)`
on `i32`), stably sort the load queue by ascending squared distance
(`sort_by` is stable, modelled by `mergeSort`), and drain that many entries
from the front.  Returns the drained entries and the remaining queue. -/
def AsyncChunkloader.get_chunks_to_load (s : AsyncChunkloader)
    (player_chunk_position : ChunkPosition) :
    List ChunkPosition × List ChunkPosition :=
  let tasks_left := min (MAX_WORLDGEN_TASKS - s.worldgen_tasks.length)
    s.load_chunk_queue.length
  let sorted := s.load_chunk_queue.mergeSort (distLe player_chunk_position)
  (sorted.take tasks_left, sorted.drop tasks_left)

/-- C6: one admission pass admits exactly
`min(MAX_WORLDGEN_TASKS - in_flight, queue_len)` entries (clamped at 0 —
never negative), the admitted and remaining entries together are a
permutation of the original queue (nothing is lost), and every admitted
entry is at most as far from the viewer (by squared Euclidean distance) as
every entry left in the queue — i.e. the admitted entries are the k nearest
(ties broken by queue order, since the sort is stable). -/
theorem c6_admission_nearest (s : AsyncChunkloader) (p : ChunkPosition) :
    (s.get_chunks_to_load p).1.length =
      min (MAX_WORLDGEN_TASKS - s.worldgen_tasks.length) s.load_chunk_queue.length ∧
    ((s.get_chunks_to_load p).1 ++ (s.get_chunks_to_load p).2).Perm
      s.load_chunk_queue ∧
    ∀ a ∈ (s.get_chunks_to_load p).1, ∀ b ∈ (s.get_chunks_to_load p).2,
      a.distance_squared p ≤ b.distance_squared p := by
  have hperm := List.mergeSort_perm s.load_chunk_queue (distLe p)
  have hlen : (s.load_chunk_queue.mergeSort (distLe p)).length =
      s.load_chunk_queue.length := hperm.length_eq
  have hsorted : List.Pairwise (fun a b => distLe p a b = true)
      (s.load_chunk_queue.mergeSort (distLe p)) := by
    refine List.sorted_mergeSort ?_ ?_ s.load_chunk_queue
    · intro a b c hab hbc
      simp only [distLe, decide_eq_true_eq] at *
      omega
    · intro a b
      simp only [distLe, Bool.or_eq_true, decide_eq_true_eq]
      omega
  refine ⟨?_, ?_, ?_⟩
  · simp only [AsyncChunkloader.get_chunks_to_load, List.length_take, hlen]
    omega
  · simp only [AsyncChunkloader.get_chunks_to_load, List.take_append_drop]
    exact hperm
  · intro a ha b hb
    simp only [AsyncChunkloader.get_chunks_to_load] at ha hb
    have := (List.pairwise_append.mp
      (by rw [List.take_append_drop]; exact hsorted)).2.2 a ha b hb
    simpa [distLe, decide_eq_true_eq] using this

/-- A concrete scheduler state: 63 tasks in flight, two queued chunks. -/
def loaderW : AsyncChunkloader :=
  ⟨[⟨5, 0, 0⟩, ⟨1, 0, 0⟩], [], List.replicate 63 ⟨0, 0, 0⟩⟩

/-- Witness for C6 at a concrete state: capacity 1 admits the nearer of two
queued chunks, and its distance is at most the remaining one's. -/
theorem c6_admission_nearest_witness :
    (loaderW.get_chunks_to_load ⟨0, 0, 0⟩).1.length = 1 ∧
    IVec3.distance_squared ⟨1, 0, 0⟩ ⟨0, 0, 0⟩ ≤
      IVec3.distance_squared ⟨5, 0, 0⟩ ⟨0, 0, 0⟩ := by
  constructor
  · rw [(c6_admission_nearest loaderW ⟨0, 0, 0⟩).1]
    decide
  · exact (c6_admission_nearest loaderW ⟨0, 0, 0⟩).2.2 ⟨1, 0, 0⟩
      (by simp [loaderW, AsyncChunkloader.get_chunks_to_load, List.mergeSort,
        distLe, IVec3.distance_squared, MAX_WORLDGEN_TASKS])
      ⟨5, 0, 0⟩
      (by simp [loaderW, AsyncChunkloader.get_chunks_to_load, List.mergeSort,
        distLe, IVec3.distance_squared, MAX_WORLDGEN_TASKS])

/-- One entry of `AsyncChunkloader::mesh_tasks` with its poll status:
`none` = still pending, `some st` = completed with mesher result `st`
(`st = none` when the mesher produced no quads). -/
abbrev MeshTaskEntry := ChunkPosition × Option (Option ChunkMaterial)

/-- The spawned chunk entities, each with an optional `RenderableChunk`
component. -/
abbrev EntityTable := List (ChunkPosition × Option ChunkMaterial)

/-- The `entity_commands.insert(renderable_chunk)` loop of
`join_mesh_threads`: give the first entity whose chunk position matches the
task's coordinate the new renderable component (replacing any existing one),
then break. -/
def insertRenderable : EntityTable → ChunkPosition → ChunkMaterial → EntityTable
  | [], _, _ => []
  | (p, comp) :: rest, pos, r =>
    if p = pos then (p, some r) :: rest else (p, comp) :: insertRenderable rest pos r

/-- `async_chunkloader.rs` `join_mesh_threads`: poll every in-flight mesh
task (`retain`); a still-pending task is kept; a completed task is dropped
from the table, and only if it produced quads are they inserted on the
chunk's entity — a completed task with no quads leaves the entities
untouched. -/
def join_mesh_threads (mesh_tasks : List MeshTaskEntry) (entities : EntityTable) :
    List MeshTaskEntry × EntityTable :=
  mesh_tasks.foldl
    (fun acc t =>
      match t.2 with
      | none => (acc.1 ++ [t], acc.2)
      | some none => (acc.1, acc.2)
      | some (some r) => (acc.1, insertRenderable acc.2 t.1 r))
    ([], entities)

/-- Look up the renderable component of the chunk entity at `pos`. -/
def getRenderable (entities : EntityTable) (pos : ChunkPosition) :
    Option (Option ChunkMaterial) :=
  (entities.find? (fun e => e.1 == pos)).map (·.2)

/-- A coordinate and a renderable used in the C7 scenario. -/
def meshP0 : ChunkPosition := ⟨0, 0, 0⟩

/-- An existing renderable entry (one arbitrary quad) at `meshP0`. -/
def meshR0 : ChunkMaterial := ⟨[⟨0⟩], meshP0⟩

/-- C7 counterexample: a chunk entity already has a renderable entry and its
in-flight mesh task completes with no quads; after the join pass the task is
gone but the existing renderable entry is still present (it is *not*
removed), contradicting the claim's removal branch. -/
theorem c7_join_mesh_counterexample :
    (join_mesh_threads [(meshP0, some none)] [(meshP0, some meshR0)]).1 = [] ∧
    (join_mesh_threads [(meshP0, some none)] [(meshP0, some meshR0)]).2 =
      [(meshP0, some meshR0)] ∧
    getRenderable (join_mesh_threads [(meshP0, some none)]
      [(meshP0, some meshR0)]).2 meshP0 ≠ some none := by
  refine ⟨rfl, rfl, by decide⟩

theorem getRenderable_insertRenderable (entities : EntityTable)
    (pos : ChunkPosition) (r : ChunkMaterial)
    (h : (getRenderable entities pos).isSome) :
    getRenderable (insertRenderable entities pos r) pos = some (some r) := by
  induction entities with
  | nil => simp [getRenderable] at h
  | cons e rest ih =>
    obtain ⟨p, comp⟩ := e
    by_cases hp : p = pos
    · simp [insertRenderable, getRenderable, hp]
    · simp only [insertRenderable, if_neg hp]
      have hb : (p == pos) = false := by simpa using hp
      simp only [getRenderable, List.find?_cons, hb] at h ⊢
      exact ih h

/-- C7 (amended): when the scheduler polls a completed mesh task, the task
is removed from the in-flight table; if it produced quads they replace any
existing renderable entry of that chunk's entity; if it produced no quads
the task is simply discarded and the entity table — including any existing
renderable entry for that coordinate — is left unchanged (nothing is
removed). -/
theorem c7_join_mesh_amended (entities : EntityTable) (pos : ChunkPosition) :
    (∀ r : ChunkMaterial,
      (join_mesh_threads [(pos, some (some r))] entities).1 = [] ∧
      (join_mesh_threads [(pos, some (some r))] entities).2 =
        insertRenderable entities pos r ∧
      ((getRenderable entities pos).isSome →
        getRenderable (join_mesh_threads [(pos, some (some r))] entities).2 pos =
          some (some r))) ∧
    ((join_mesh_threads [(pos, some none)] entities).1 = [] ∧
      (join_mesh_threads [(pos, some none)] entities).2 = entities) := by
  refine ⟨fun r => ⟨rfl, rfl, fun h => ?_⟩, rfl, rfl⟩
  exact getRenderable_insertRenderable entities pos r h

/-- Witness for C7's amended theorem: a completed task with quads replaces
the existing entry at `meshP0`. -/
theorem c7_join_mesh_amended_witness :
    getRenderable (join_mesh_threads [(meshP0, some (some meshR0))]
      [(meshP0, some meshR0)]).2 meshP0 = some (some meshR0) :=
  (c7_join_mesh_amended [(meshP0, some meshR0)] meshP0).1 meshR0 |>.2.2 (by decide)

/-- Fold of `HashMap::remove` over a drained list of coordinates. -/
def Chunks.removeAll (m : Chunks) (l : List ChunkPosition) : Chunks :=
  l.foldl (fun acc p => fun q => if q = p then none else acc q) m

/-- `async_chunkloader.rs` `unload_chunks`: drain the whole unload queue (no
concurrency bound), remove every drained coordinate from the world map
(`Chunks`) and from the in-flight worldgen-task table (the entity-despawn
loop touches neither structure and is not modelled).  Returns the updated
loader state and world map. -/
def unload_chunks (s : AsyncChunkloader) (chunk_entities : Chunks) :
    AsyncChunkloader × Chunks :=
  let to_unload := s.unload_chunk_queue
  ({ s with
      unload_chunk_queue := [],
      worldgen_tasks := to_unload.foldl
        (fun ts p => ts.filter (fun q => !(q == p))) s.worldgen_tasks },
   Chunks.removeAll chunk_entities to_unload)

theorem removeAll_preserves_none (l : List ChunkPosition) (m : Chunks)
    (p : ChunkPosition) (h : m p = none) : Chunks.removeAll m l p = none := by
  induction l generalizing m with
  | nil => exact h
  | cons a l ih =>
    simp only [Chunks.removeAll, List.foldl_cons]
    exact ih _ (by simp [h])

theorem removeAll_eq_none (l : List ChunkPosition) (m : Chunks)
    (p : ChunkPosition) (h : p ∈ l) : Chunks.removeAll m l p = none := by
  induction l generalizing m with
  | nil => simp at h
  | cons a l ih =>
    simp only [Chunks.removeAll, List.foldl_cons]
    rcases List.mem_cons.mp h with rfl | hmem
    · exact removeAll_preserves_none l _ p (by simp)
    · exact ih _ hmem

theorem filterFold_preserves_not_mem (l : List ChunkPosition)
    (ts : List ChunkPosition) (p : ChunkPosition) (h : p ∉ ts) :
    p ∉ l.foldl (fun ts q => ts.filter (fun r => !(r == q))) ts := by
  induction l generalizing ts with
  | nil => exact h
  | cons a l ih =>
    simp only [List.foldl_cons]
    exact ih _ (fun hc => h (List.mem_of_mem_filter hc))

theorem filterFold_not_mem (l : List ChunkPosition) (ts : List ChunkPosition)
    (p : ChunkPosition) (h : p ∈ l) :
    p ∉ l.foldl (fun ts q => ts.filter (fun r => !(r == q))) ts := by
  induction l generalizing ts with
  | nil => simp at h
  | cons a l ih =>
    simp only [List.foldl_cons]
    rcases List.mem_cons.mp h with rfl | hmem
    · refine filterFold_preserves_not_mem l _ p ?_
      intro hc
      simpa using (List.mem_filter.mp hc).2
    · exact ih _ hmem

/-- C8: after one unload pass, every coordinate drained from the data-unload
queue has no world-map entry and no in-flight worldgen task keyed by it, and
the unload queue has been drained completely (no concurrency bound). -/
theorem c8_unload_pass (s : AsyncChunkloader) (chunk_entities : Chunks)
    (p : ChunkPosition) (hp : p ∈ s.unload_chunk_queue) :
    (unload_chunks s chunk_entities).2 p = none ∧
    p ∉ (unload_chunks s chunk_entities).1.worldgen_tasks ∧
    (unload_chunks s chunk_entities).1.unload_chunk_queue = [] := by
  refine ⟨removeAll_eq_none _ _ _ hp, ?_, rfl⟩
  exact filterFold_not_mem _ _ _ hp

/-- Witness for C8 at a concrete state: a queued coordinate with a world-map
entry and an in-flight task is fully forgotten by the pass. -/
theorem c8_unload_pass_witness :
    (unload_chunks ⟨[], [⟨1, 2, 3⟩], [⟨1, 2, 3⟩]⟩
      (fun q => if q = ⟨1, 2, 3⟩ then some airChunk else none)).2 ⟨1, 2, 3⟩ = none ∧
    (⟨1, 2, 3⟩ : ChunkPosition) ∉
      (unload_chunks ⟨[], [⟨1, 2, 3⟩], [⟨1, 2, 3⟩]⟩
        (fun q => if q = ⟨1, 2, 3⟩ then some airChunk else none)).1.worldgen_tasks ∧
    (unload_chunks ⟨[], [⟨1, 2, 3⟩], [⟨1, 2, 3⟩]⟩
      (fun q => if q = ⟨1, 2, 3⟩ then some airChunk else none)).1.unload_chunk_queue
      = [] :=
  c8_unload_pass ⟨[], [⟨1, 2, 3⟩], [⟨1, 2, 3⟩]⟩
    (fun q => if q = ⟨1, 2, 3⟩ then some airChunk else none) ⟨1, 2, 3⟩ (by decide)

/-- `ChunkRefs::is_all_voxels_same`: true iff chunk slot 0 is Homogeneous
and every one of the 27 chunks is Homogeneous with the same block value.
(The source's `[0]` slice index panics on an empty slice; views always hold
27 chunks, modelled by `getD`.) -/
def ChunkRefs.is_all_voxels_same (r : ChunkRefs) : Bool :=
  let c0 := r.adjacent_chunks.getD 0 airChunk
  if c0.is_homogenous then
    let block_type := c0.get_block 0
    r.adjacent_chunks.all (fun c => c.is_homogenous && (c.get_block 0 == block_type))
  else false

/-- `ChunkRefs::vec3_to_chunk_index`: `x % 3 + y * 3 + z * (3 * 3)`, cast to
`usize` (`Int.toNat`; inputs are the nonnegative digit triples). -/
def ChunkRefs.vec3_to_chunk_index (v : IVec3) : Nat :=
  (v.x % 3 + v.y * 3 + v.z * (3 * 3)).toNat

/-- `ChunkRefs::get_block`: shift each component by `+CHUNK_SIZE` (the
`as usize` cast is modelled by `Int.toNat`; callers stay in `[-32, 64)` so
the cast does not wrap), split into a neighbour-slot digit (`/ 32`) and a
local coordinate (`% 32`), and index the owning neighbour chunk. -/
def ChunkRefs.get_block (r : ChunkRefs) (pos : RelativePosition) : BlockPrototype :=
  let x := (pos.x + (CHUNK_SIZE : Int)).toNat
  let y := (pos.y + (CHUNK_SIZE : Int)).toNat
  let z := (pos.z + (CHUNK_SIZE : Int)).toNat
  let chunk_index := ChunkRefs.vec3_to_chunk_index
    ⟨(x / CHUNK_SIZE : Nat), (y / CHUNK_SIZE : Nat), (z / CHUNK_SIZE : Nat)⟩
  (r.adjacent_chunks.getD chunk_index airChunk).get_block
    (VoxelIndex.new (x % CHUNK_SIZE) (y % CHUNK_SIZE) (z % CHUNK_SIZE))

/-- `chunk.rs` `From<RelativePosition> for VoxelIndex` (the source `expect`s
nonnegative components; `Int.toNat` models the cast). -/
def relativeToVoxelIndex (pos : RelativePosition) : Nat :=
  VoxelIndex.new pos.x.toNat pos.y.toNat pos.z.toNat

/-- `ChunkRefs::get_block_no_neighbour`: index the middle chunk (slot 13)
directly with the local position. -/
def ChunkRefs.get_block_no_neighbour (r : ChunkRefs) (pos : RelativePosition) :
    BlockPrototype :=
  (r.adjacent_chunks.getD 13 airChunk).get_block (relativeToVoxelIndex pos)

/-- C9: for every relative position with components in `[-32, 64)`,
`get_block` returns the voxel of the neighbour chunk at slot
`sx + 3·sy + 9·sz` where each digit is `⌊(c+32)/32⌋ ∈ {0,1,2}`, at the
re-based local index with components `(c+32) mod 32 ∈ [0,32)` — modular
arithmetic on the shifted coordinate, not truncating division on the signed
one. -/
theorem c9_get_block_slot_decomposition (r : ChunkRefs) (pos : RelativePosition)
    (hx : -32 ≤ pos.x ∧ pos.x < 64) (hy : -32 ≤ pos.y ∧ pos.y < 64)
    (hz : -32 ≤ pos.z ∧ pos.z < 64) :
    r.get_block pos =
      (r.adjacent_chunks.getD
        ((pos.x + 32).toNat / 32 + 3 * ((pos.y + 32).toNat / 32) +
          9 * ((pos.z + 32).toNat / 32)) airChunk).get_block
        (VoxelIndex.new ((pos.x + 32).toNat % 32) ((pos.y + 32).toNat % 32)
          ((pos.z + 32).toNat % 32)) ∧
    (pos.x + 32).toNat / 32 < 3 ∧ (pos.y + 32).toNat / 32 < 3 ∧
    (pos.z + 32).toNat / 32 < 3 ∧
    (pos.x + 32).toNat % 32 < 32 ∧ (pos.y + 32).toNat % 32 < 32 ∧
    (pos.z + 32).toNat % 32 < 32 := by
  refine ⟨?_, by omega, by omega, by omega, by omega, by omega, by omega⟩
  show (r.adjacent_chunks.getD (ChunkRefs.vec3_to_chunk_index _) airChunk).get_block
    _ = _
  have hidx : ChunkRefs.vec3_to_chunk_index
      ⟨((pos.x + (CHUNK_SIZE : Int)).toNat / CHUNK_SIZE : Nat),
       ((pos.y + (CHUNK_SIZE : Int)).toNat / CHUNK_SIZE : Nat),
       ((pos.z + (CHUNK_SIZE : Int)).toNat / CHUNK_SIZE : Nat)⟩ =
      (pos.x + 32).toNat / 32 + 3 * ((pos.y + 32).toNat / 32) +
        9 * ((pos.z + 32).toNat / 32) := by
    simp only [ChunkRefs.vec3_to_chunk_index, CHUNK_SIZE]
    omega
  rw [hidx]
  simp only [CHUNK_SIZE, Nat.cast_ofNat]

/-- Witness for C9 at a concrete position crossing two chunk borders. -/
theorem c9_get_block_slot_decomposition_witness :
    (⟨List.replicate 27 airChunk, ⟨0, 0, 0⟩⟩ : ChunkRefs).get_block ⟨-5, 0, 40⟩ =
      ((⟨List.replicate 27 airChunk, ⟨0, 0, 0⟩⟩ : ChunkRefs).adjacent_chunks.getD
        (((-5 : Int) + 32).toNat / 32 + 3 * (((0 : Int) + 32).toNat / 32) +
          9 * (((40 : Int) + 32).toNat / 32)) airChunk).get_block
        (VoxelIndex.new (((-5 : Int) + 32).toNat % 32) (((0 : Int) + 32).toNat % 32)
          (((40 : Int) + 32).toNat % 32)) :=
  (c9_get_block_slot_decomposition ⟨List.replicate 27 airChunk, ⟨0, 0, 0⟩⟩
    ⟨-5, 0, 40⟩ (by decide) (by decide) (by decide)).1

/-- Bitwise complement within u64 (`!x` on `u64`). -/
def not64 (v : Nat) : Nat := v ^^^ (2 ^ 64 - 1)

/-- Bitwise complement within u32 (`!x` on `u32`). -/
def not32 (v : Nat) : Nat := v ^^^ (2 ^ 32 - 1)

/-- Shift left within u64. -/
def shl64 (v s : Nat) : Nat := (v <<< s) % 2 ^ 64

/-- Shift left within u32. -/
def shl32 (v s : Nat) : Nat := (v <<< s) % 2 ^ 32

/-- Count trailing zero bits (fueled auxiliary; called with fuel covering
the word width and a nonzero argument). -/
def tzAux : Nat → Nat → Nat
  | 0, _ => 0
  | fuel + 1, n => if n % 2 = 1 then 0 else tzAux fuel (n / 2) + 1

/-- Count trailing one bits (fueled auxiliary). -/
def toAux : Nat → Nat → Nat
  | 0, _ => 0
  | fuel + 1, n => if n % 2 = 1 then toAux fuel (n / 2) + 1 else 0

/-- `u64::trailing_zeros` (64 for zero). -/
def trailingZeros64 (n : Nat) : Nat := if n = 0 then 64 else tzAux 64 n

/-- `u32::trailing_zeros` (32 for zero). -/
def trailingZeros32 (n : Nat) : Nat := if n = 0 then 32 else tzAux 32 n

/-- `u32::trailing_ones` (arguments are reduced u32 values, so 32 fuel
covers the word). -/
def trailingOnes32 (n : Nat) : Nat := toAux 32 n

/-- `chunky/constants.rs` `ADJACENT_AO_DIRS`: the nine in-plane offsets. -/
def ADJACENT_AO_DIRS : List (Int × Int) :=
  [(-1, -1), (-1, 0), (-1, 1), (0, -1), (0, 0), (0, 1), (1, -1), (1, 0), (1, 1)]

/-- The `axis_cols` accumulator `[[[u64; CHUNK_SIZE_P]; CHUNK_SIZE_P]; 3]`,
modelled as an index function `axis → row → column → u64`. -/
def AxisCols := Nat → Nat → Nat → Nat

/-- `add_voxel_to_axis_cols`: when the block is solid (not transparent), OR
bit `y` into `axis_cols[0][z][x]`, bit `x` into `axis_cols[1][y][z]` and bit
`z` into `axis_cols[2][y][x]`; transparent blocks contribute nothing. -/
def add_voxel_to_axis_cols (block : BlockPrototype) (x y z : Nat)
    (axis_cols : AxisCols) : AxisCols :=
  if !block.is_transparent then
    fun a r c =>
      if a = 0 ∧ r = z ∧ c = x then axis_cols a r c ||| (1 <<< y)
      else if a = 1 ∧ r = y ∧ c = z then axis_cols a r c ||| (1 <<< x)
      else if a = 2 ∧ r = y ∧ c = x then axis_cols a r c ||| (1 <<< z)
      else axis_cols a r c
  else axis_cols

/-- One step of the "inner chunk voxels" loop of
`build_chunk_instance_data`: the source tracks `(x,y,z)` alongside `i`
(x fastest), which is exactly `voxelIndexToCoords i`; the voxel is added at
padded coordinates `(x+1, y+1, z+1)`. -/
def innerVoxelStep (chunk : ChunkData) (axis_cols : AxisCols) (i : Nat) : AxisCols :=
  add_voxel_to_axis_cols (chunk.get_block i) ((voxelIndexToCoords i).1 + 1)
    ((voxelIndexToCoords i).2.1 + 1) ((voxelIndexToCoords i).2.2 + 1) axis_cols

/-- One step of the three "neighbor chunk voxels" boundary loops: sample the
neighbourhood at `(x-1, y-1, z-1)` and add at padded `(x, y, z)`. -/
def boundaryVoxelStep (r : ChunkRefs) (axis_cols : AxisCols)
    (t : Nat × Nat × Nat) : AxisCols :=
  add_voxel_to_axis_cols
    (r.get_block ⟨(t.1 : Int) - 1, (t.2.1 : Int) - 1, (t.2.2 : Int) - 1⟩)
    t.1 t.2.1 t.2.2 axis_cols

/-- Iteration order of the first boundary loop:
`for z in [0, 33] { for y in 0..34 { for x in 0..34 } }`. -/
def boundaryTriplesZ : List (Nat × Nat × Nat) :=
  [0, CHUNK_SIZE_P - 1].flatMap fun z =>
    (List.range CHUNK_SIZE_P).flatMap fun y =>
      (List.range CHUNK_SIZE_P).map fun x => (x, y, z)

/-- Second boundary loop: `for z in 0..34 { for y in [0, 33] { for x } }`. -/
def boundaryTriplesY : List (Nat × Nat × Nat) :=
  (List.range CHUNK_SIZE_P).flatMap fun z =>
    [0, CHUNK_SIZE_P - 1].flatMap fun y =>
      (List.range CHUNK_SIZE_P).map fun x => (x, y, z)

/-- Third boundary loop: `for z in 0..34 { for x in [0, 33] { for y } }`. -/
def boundaryTriplesX : List (Nat × Nat × Nat) :=
  (List.range CHUNK_SIZE_P).flatMap fun z =>
    [0, CHUNK_SIZE_P - 1].flatMap fun x =>
      (List.range CHUNK_SIZE_P).map fun y => (x, y, z)

/-- The `axis_cols` construction of `build_chunk_instance_data`:
zero-initialised columns, the inner loop over the middle chunk
(slot `vec3_to_chunk_index(1,1,1) = 13`), then the three boundary loops. -/
def buildAxisCols (r : ChunkRefs) : AxisCols :=
  let chunk := r.adjacent_chunks.getD
    (ChunkRefs.vec3_to_chunk_index ⟨1, 1, 1⟩) airChunk
  let s0 : AxisCols := fun _ _ _ => 0
  let s1 := (List.range CHUNK_SIZE3).foldl (innerVoxelStep chunk) s0
  let s2 := boundaryTriplesZ.foldl (boundaryVoxelStep r) s1
  let s3 := boundaryTriplesY.foldl (boundaryVoxelStep r) s2
  boundaryTriplesX.foldl (boundaryVoxelStep r) s3

/-- The face-culling masks of `calculate_ao`:
`col_face_masks[2*axis][z][x] = col & !(col << 1)` (descending) and
`col_face_masks[2*axis+1][z][x] = col & !(col >> 1)` (ascending), with u64
semantics; each entry is written once from `axis_cols`, so the array is a
function of it. -/
def colFaceMasks (axis_cols : AxisCols) (k z x : Nat) : Nat :=
  let col := axis_cols (k / 2) z x
  if k % 2 = 0 then col &&& not64 (shl64 col 1)
  else col &&& not64 (col >>> 1)

/-- One axis' bins of `calculate_ao`:
`HashMap<block_hash, HashMap<axis_pos, [u32; CHUNK_SIZE]>>` modelled as
insertion-ordered association lists (a plane is a row-indexed list of
u32 masks). -/
abbrev BinData := List (Nat × List (Nat × List Nat))

/-- `entry(k).or_default()` followed by an in-place update: modify the
existing entry, or append a fresh default one. -/
def updateEntry {α : Type} (k : Nat) (dflt : α) (f : α → α) :
    List (Nat × α) → List (Nat × α)
  | [] => [(k, f dflt)]
  | (k', v) :: rest =>
    if k' = k then (k', f v) :: rest else (k', v) :: updateEntry k dflt f rest

/-- The ambient-occlusion index of one face: fold over the nine
`ADJACENT_AO_DIRS` offsets (enumerated), sampling the *neighbourhood* with
the per-axis offset pattern and setting bit `ao_i` when the sample is
solid. -/
def aoIndexFor (r : ChunkRefs) (axis : Nat) (voxel_pos : IVec3) : Nat :=
  (List.range 9).foldl
    (fun ao_index ao_i =>
      let ao_offset := ADJACENT_AO_DIRS.getD ao_i (0, 0)
      let ao_sample_offset : IVec3 :=
        match axis with
        | 0 => ⟨ao_offset.1, -1, ao_offset.2⟩
        | 1 => ⟨ao_offset.1, 1, ao_offset.2⟩
        | 2 => ⟨-1, ao_offset.2, ao_offset.1⟩
        | 3 => ⟨1, ao_offset.2, ao_offset.1⟩
        | 4 => ⟨ao_offset.1, ao_offset.2, -1⟩
        | _ => ⟨ao_offset.1, ao_offset.2, 1⟩
      if !(r.get_block (voxel_pos + ao_sample_offset)).is_transparent then
        ao_index ||| (1 <<< ao_i)
      else ao_index)
    0

/-- The `while col != 0` bit-extraction loop of `calculate_ao`: pop the
lowest set bit (height `y`), compute the voxel position for this axis, its
ambient-occlusion index (neighbourhood sampling) and its block kind
(center-only fast path), and OR bit `z` into row `x` of the binary plane
keyed by `(block_hash = ao_index | id << 9, y)`.  A u64 column has at most
64 set bits and each iteration clears one, so 65 fuel covers the loop. -/
def binColumn (r : ChunkRefs) (axis x z : Nat) :
    Nat → Nat → BinData → BinData
  | 0, _, d => d
  | fuel + 1, col, d =>
    if col = 0 then d
    else
      let y := trailingZeros64 col
      let voxel_pos : IVec3 :=
        match axis with
        | 0 | 1 => ⟨(x : Int), (y : Int), (z : Int)⟩
        | 2 | 3 => ⟨(y : Int), (z : Int), (x : Int)⟩
        | _ => ⟨(x : Int), (z : Int), (y : Int)⟩
      let ao_index := aoIndexFor r axis voxel_pos
      let current_voxel := r.get_block_no_neighbour voxel_pos
      let block_hash := ao_index ||| (current_voxel.id <<< 9)
      let d' := updateEntry block_hash []
        (updateEntry y (List.replicate CHUNK_SIZE 0)
          (fun plane => plane.set x ((plane.getD x 0) ||| (1 <<< z)))) d
      binColumn r axis x z fuel (col &&& (col - 1)) d'

/-- `calculate_ao` (the binning stage): for each of the six face directions,
scan the un-padded interior columns (`+1` offsets skip the padding, `>> 1`
drops the low padding bit, clearing bit 32 drops the high one) and bin every
visible face.  The source fills the six hash maps in one triple loop; the
per-axis bins are independent, so they are built per axis here. -/
def calculate_ao (r : ChunkRefs) (axis_cols : AxisCols) : List BinData :=
  (List.range 6).map fun axis =>
    ((List.range CHUNK_SIZE).flatMap fun z =>
      (List.range CHUNK_SIZE).map fun x => (z, x)).foldl
      (fun d zx =>
        let col0 := colFaceMasks axis_cols axis (zx.1 + 1) (zx.2 + 1)
        let col := (col0 >>> 1) &&& not64 (1 <<< CHUNK_SIZE)
        binColumn r axis zx.2 zx.1 65 col d)
      []

/-- `greedy_mesher_optimized.rs` `GreedyQuad`. -/
structure GreedyQuad where
  x : Nat
  y : Nat
  w : Nat
  h : Nat
deriving DecidableEq

/-- The horizontal-growth loop (`while row + w < lod_size`) of
`greedy_mesh_binary_plane`: extend into the next row while it carries the
identical `h`-bit pattern at height `y`, clearing the consumed bits; `w`
increases every iteration, so `lod_size + 1` fuel covers the loop.  Returns
the updated plane and the final width. -/
def greedyGrow (lod_size row y h_as_mask mask : Nat) :
    Nat → List Nat → Nat → List Nat × Nat
  | 0, data, w => (data, w)
  | fuel + 1, data, w =>
    if row + w < lod_size then
      if ((data.getD (row + w) 0) >>> y) &&& h_as_mask ≠ h_as_mask then (data, w)
      else
        greedyGrow lod_size row y h_as_mask mask fuel
          (data.set (row + w) ((data.getD (row + w) 0) &&& not32 mask)) (w + 1)
    else (data, w)

/-- The `while y < lod_size` loop of `greedy_mesh_binary_plane` for one row:
skip to the next set bit (`trailing_zeros`), measure the vertical run
(`trailing_ones`), build `h_as_mask` via `checked_shl` (all-ones on
overflow), grow horizontally, emit the quad, and continue above it.  `y`
strictly increases every iteration, so `lod_size + 1` fuel covers the
loop. -/
def greedyRow (lod_size row : Nat) :
    Nat → Nat → List Nat → List GreedyQuad → List Nat × List GreedyQuad
  | 0, _, data, quads => (data, quads)
  | fuel + 1, y0, data, quads =>
    if y0 < lod_size then
      let y := y0 + trailingZeros32 ((data.getD row 0) >>> y0)
      if lod_size ≤ y then (data, quads)
      else
        let h := trailingOnes32 ((data.getD row 0) >>> y)
        let h_as_mask := if 32 ≤ h then 2 ^ 32 - 1 else (1 <<< h) - 1
        let mask := shl32 h_as_mask y
        let grown := greedyGrow lod_size row y h_as_mask mask (lod_size + 1) data 1
        greedyRow lod_size row fuel (y + h) grown.1 (quads ++ [⟨row, y, grown.2, h⟩])
    else (data, quads)

/-- `greedy_mesh_binary_plane`: sweep all rows of the binary plane in order,
greedily merging rectangles. -/
def greedy_mesh_binary_plane (data : List Nat) (lod_size : Nat) : List GreedyQuad :=
  ((List.range data.length).foldl
    (fun st row => greedyRow lod_size row (lod_size + 1) 0 st.1 st.2)
    (data, [])).2

set_option maxRecDepth 4000 in
/-- C5: on the binary plane whose 32 rows all have all 32 bits set, the 2D
greedy merge at full LOD size 32 yields exactly one quad covering the whole
plane, with extents 32×32 (`w = h = 32`, at origin). -/
theorem c5_greedy_full_plane :
    greedy_mesh_binary_plane (List.replicate CHUNK_SIZE (2 ^ 32 - 1)) 32 =
      [⟨0, 0, 32, 32⟩] := by decide

/-- The quad-emission stage of `build_chunk_instance_data`, parametrised by
the already-built `axis_cols`: the early uniform exit, the binning
(`calculate_ao`), the 2D greedy merge of every binary plane, the coordinate
remap (`world_to_sample`) and packing (`PackedQuad::new`), then the
empty-output check. -/
def meshFromAxisCols (r : ChunkRefs) (lod : Lod) (axis_cols : AxisCols) :
    Option ChunkMaterial :=
  if r.is_all_voxels_same then none
  else
    let data := calculate_ao r axis_cols
    let quads := (List.range 6).flatMap fun axis =>
      let face_dir : FaceDir :=
        match axis with
        | 0 => .Down
        | 1 => .Up
        | 2 => .Left
        | 3 => .Right
        | 4 => .Forward
        | _ => .Back
      (data.getD axis []).flatMap fun block_ao_entry =>
        let ao := block_ao_entry.1 &&& 511
        block_ao_entry.2.flatMap fun axis_plane =>
          (greedy_mesh_binary_plane axis_plane.2 lod.size).map fun gq =>
            PackedQuad.new
              (face_dir.world_to_sample (axis_plane.1 : Int) (gq.x : Int)
                (gq.y : Int) lod)
              face_dir.normal_index ao gq.h gq.w
    if quads = [] then none
    else some ⟨quads, r.center_chunk_position⟩

/-- `build_chunk_instance_data`: early-exit when all 27 chunks hold one
uniform value, otherwise build the solid columns from the middle chunk and
the neighbour shell, bin the visible faces, greedy-merge and pack. -/
def build_chunk_instance_data (r : ChunkRefs) (lod : Lod) : Option ChunkMaterial :=
  meshFromAxisCols r lod (buildAxisCols r)

theorem foldl_congr_id {σ α : Type} (f : σ → α → σ) (l : List α)
    (hid : ∀ s, ∀ a ∈ l, f s a = s) (s : σ) : l.foldl f s = s := by
  induction l generalizing s with
  | nil => rfl
  | cons a l ih =>
    rw [List.foldl_cons, hid s a (by simp)]
    exact ih (fun s' a' ha' => hid s' a' (by simp [ha'])) s

theorem foldl_absorb {σ α : Type} (f : σ → α → σ) (a₀ : α)
    (hidem : ∀ s, f (f s a₀) a₀ = f s a₀) (l : List α) :
    (∀ s, ∀ a ∈ l, a ≠ a₀ → f s a = s) → ∀ s, l.foldl f (f s a₀) = f s a₀ := by
  induction l with
  | nil => intro _ s; rfl
  | cons a l ih =>
    intro hid s
    rw [List.foldl_cons]
    by_cases ha : a = a₀
    · subst ha
      rw [hidem s]
      exact ih (fun s' a' ha' hne => hid s' a' (List.mem_cons_of_mem _ ha') hne) s
    · rw [hid (f s a₀) a (List.mem_cons_self a l) ha]
      exact ih (fun s' a' ha' hne => hid s' a' (List.mem_cons_of_mem _ ha') hne) s

theorem foldl_single {σ α : Type} (f : σ → α → σ) (a₀ : α)
    (hidem : ∀ s, f (f s a₀) a₀ = f s a₀) (l : List α) :
    (∀ s, ∀ a ∈ l, a ≠ a₀ → f s a = s) → a₀ ∈ l → ∀ s, l.foldl f s = f s a₀ := by
  induction l with
  | nil => intro _ h; simp at h
  | cons a l ih =>
    intro hid hmem s
    rw [List.foldl_cons]
    by_cases ha : a = a₀
    · subst ha
      exact foldl_absorb f a hidem l
        (fun s' a' ha' hne => hid s' a' (List.mem_cons_of_mem _ ha') hne) s
    · have hmem' : a₀ ∈ l := by
        rcases List.mem_cons.mp hmem with h | h
        · exact absurd h.symm ha
        · exact h
      rw [hid s a (List.mem_cons_self a l) ha]
      exact ih (fun s' a' ha' hne => hid s' a' (List.mem_cons_of_mem _ ha') hne) hmem' s

/-- The fixed interior coordinate `(8,8,8)` of the C1 scenario, flattened. -/
def oneVoxelIndex : Nat := VoxelIndex.new 8 8 8

/-- A center chunk holding exactly one solid (grass) voxel at `(8,8,8)`. -/
def oneVoxelChunk : ChunkData :=
  ⟨.Heterogeneous fun j => if j = oneVoxelIndex then grassBlock else airBlock⟩

/-- The C1 neighbourhood: all 27 chunks Homogeneous air except the center
(slot 13), which holds the single solid voxel. -/
def oneVoxelView : ChunkRefs :=
  ⟨(List.range 27).map fun i => if i = 13 then oneVoxelChunk else airChunk,
   ⟨0, 0, 0⟩⟩

theorem oneVoxelView_getD_ne (i : Nat) (h13 : i ≠ 13) :
    oneVoxelView.adjacent_chunks.getD i airChunk = airChunk := by
  rcases lt_or_ge i 27 with h | h
  · interval_cases i
    all_goals first
      | rfl
      | exact absurd rfl h13
  · rw [List.getD_eq_default]
    simpa [oneVoxelView] using h

theorem add_voxel_transparent (b : BlockPrototype) (hb : b.is_transparent = true)
    (x y z : Nat) (s : AxisCols) : add_voxel_to_axis_cols b x y z s = s := by
  simp [add_voxel_to_axis_cols, hb]

theorem add_voxel_idem (b : BlockPrototype) (x y z : Nat) (s : AxisCols) :
    add_voxel_to_axis_cols b x y z (add_voxel_to_axis_cols b x y z s) =
      add_voxel_to_axis_cols b x y z s := by
  unfold add_voxel_to_axis_cols
  cases hb : !b.is_transparent with
  | false => simp
  | true =>
    simp only [if_pos rfl]
    funext a r c
    split_ifs with h1 h2 h3 <;>
      simp_all [Nat.or_assoc, Nat.or_self]

theorem oneVoxelView_get_block_shell (px py pz : Int)
    (h : px = -1 ∨ px = 32 ∨ py = -1 ∨ py = 32 ∨ pz = -1 ∨ pz = 32)
    (hbx : -32 ≤ px ∧ px < 64) (hby : -32 ≤ py ∧ py < 64)
    (hbz : -32 ≤ pz ∧ pz < 64) :
    ChunkRefs.get_block oneVoxelView ⟨px, py, pz⟩ = airBlock := by
  have hslot : ChunkRefs.vec3_to_chunk_index
      ⟨(((px + (CHUNK_SIZE : Int)).toNat / CHUNK_SIZE : Nat) : Int),
       (((py + (CHUNK_SIZE : Int)).toNat / CHUNK_SIZE : Nat) : Int),
       (((pz + (CHUNK_SIZE : Int)).toNat / CHUNK_SIZE : Nat) : Int)⟩ ≠ 13 := by
    simp only [ChunkRefs.vec3_to_chunk_index, CHUNK_SIZE]
    omega
  show (oneVoxelView.adjacent_chunks.getD _ airChunk).get_block _ = airBlock
  rw [oneVoxelView_getD_ne _ hslot]
  rfl

theorem mem_boundaryTriplesZ (t : Nat × Nat × Nat) (ht : t ∈ boundaryTriplesZ) :
    (t.2.2 = 0 ∨ t.2.2 = 33) ∧ t.1 < 34 ∧ t.2.1 < 34 := by
  simp only [boundaryTriplesZ, CHUNK_SIZE_P, CHUNK_SIZE, List.mem_flatMap,
    List.mem_map, List.mem_range, List.mem_cons, List.mem_singleton] at ht
  obtain ⟨z, hz, y, hy, x, hx, rfl⟩ := ht
  refine ⟨by simpa using hz, by simpa using hx, by simpa using hy⟩

theorem mem_boundaryTriplesY (t : Nat × Nat × Nat) (ht : t ∈ boundaryTriplesY) :
    (t.2.1 = 0 ∨ t.2.1 = 33) ∧ t.1 < 34 ∧ t.2.2 < 34 := by
  simp only [boundaryTriplesY, CHUNK_SIZE_P, CHUNK_SIZE, List.mem_flatMap,
    List.mem_map, List.mem_range, List.mem_cons, List.mem_singleton] at ht
  obtain ⟨z, hz, y, hy, x, hx, rfl⟩ := ht
  refine ⟨by simpa using hy, by simpa using hx, by simpa using hz⟩

theorem mem_boundaryTriplesX (t : Nat × Nat × Nat) (ht : t ∈ boundaryTriplesX) :
    (t.1 = 0 ∨ t.1 = 33) ∧ t.2.1 < 34 ∧ t.2.2 < 34 := by
  simp only [boundaryTriplesX, CHUNK_SIZE_P, CHUNK_SIZE, List.mem_flatMap,
    List.mem_map, List.mem_range, List.mem_cons, List.mem_singleton] at ht
  obtain ⟨z, hz, x, hx, y, hy, rfl⟩ := ht
  refine ⟨by simpa using hx, by simpa using hy, by simpa using hz⟩

theorem boundaryStepZ_id (s : AxisCols) (t : Nat × Nat × Nat)
    (ht : t ∈ boundaryTriplesZ) : boundaryVoxelStep oneVoxelView s t = s := by
  have hm := mem_boundaryTriplesZ t ht
  have hair : ChunkRefs.get_block oneVoxelView
      ⟨(t.1 : Int) - 1, (t.2.1 : Int) - 1, (t.2.2 : Int) - 1⟩ = airBlock := by
    apply oneVoxelView_get_block_shell <;> omega
  unfold boundaryVoxelStep
  rw [hair]
  exact add_voxel_transparent _ rfl _ _ _ _

theorem boundaryStepY_id (s : AxisCols) (t : Nat × Nat × Nat)
    (ht : t ∈ boundaryTriplesY) : boundaryVoxelStep oneVoxelView s t = s := by
  have hm := mem_boundaryTriplesY t ht
  have hair : ChunkRefs.get_block oneVoxelView
      ⟨(t.1 : Int) - 1, (t.2.1 : Int) - 1, (t.2.2 : Int) - 1⟩ = airBlock := by
    apply oneVoxelView_get_block_shell <;> omega
  unfold boundaryVoxelStep
  rw [hair]
  exact add_voxel_transparent _ rfl _ _ _ _

theorem boundaryStepX_id (s : AxisCols) (t : Nat × Nat × Nat)
    (ht : t ∈ boundaryTriplesX) : boundaryVoxelStep oneVoxelView s t = s := by
  have hm := mem_boundaryTriplesX t ht
  have hair : ChunkRefs.get_block oneVoxelView
      ⟨(t.1 : Int) - 1, (t.2.1 : Int) - 1, (t.2.2 : Int) - 1⟩ = airBlock := by
    apply oneVoxelView_get_block_shell <;> omega
  unfold boundaryVoxelStep
  rw [hair]
  exact add_voxel_transparent _ rfl _ _ _ _

theorem innerVoxelStep_id (s : AxisCols) (i : Nat) (hne : i ≠ oneVoxelIndex) :
    innerVoxelStep oneVoxelChunk s i = s := by
  have hblock : oneVoxelChunk.get_block i = airBlock := by
    simp [oneVoxelChunk, ChunkData.get_block, hne]
  unfold innerVoxelStep
  rw [hblock]
  exact add_voxel_transparent _ rfl _ _ _ _

theorem innerVoxelStep_one (s : AxisCols) :
    innerVoxelStep oneVoxelChunk s oneVoxelIndex =
      add_voxel_to_axis_cols grassBlock 9 9 9 s := rfl

/-- In the single-voxel neighbourhood, the whole `axis_cols` construction
collapses to one contribution: bit 9 at padded cell `(9,9)` of each of the
three axes (every other sampled voxel is air). -/
theorem buildAxisCols_oneVoxel :
    buildAxisCols oneVoxelView =
      add_voxel_to_axis_cols grassBlock 9 9 9 (fun _ _ _ => 0) := by
  have h1 : (List.range CHUNK_SIZE3).foldl (innerVoxelStep oneVoxelChunk)
      (fun _ _ _ => 0) =
      add_voxel_to_axis_cols grassBlock 9 9 9 (fun _ _ _ => 0) := by
    have := foldl_single (innerVoxelStep oneVoxelChunk) oneVoxelIndex
      (fun s => by
        simp only [innerVoxelStep_one]
        exact add_voxel_idem _ _ _ _ _)
      (List.range CHUNK_SIZE3)
      (fun s a _ hne => innerVoxelStep_id s a hne)
      (List.mem_range.mpr (by decide))
      (fun _ _ _ => 0)
    rw [this, innerVoxelStep_one]
  show boundaryTriplesX.foldl (boundaryVoxelStep oneVoxelView)
      (boundaryTriplesY.foldl (boundaryVoxelStep oneVoxelView)
        (boundaryTriplesZ.foldl (boundaryVoxelStep oneVoxelView)
          ((List.range CHUNK_SIZE3).foldl
            (innerVoxelStep (oneVoxelView.adjacent_chunks.getD
              (ChunkRefs.vec3_to_chunk_index ⟨1, 1, 1⟩) airChunk))
            (fun _ _ _ => 0)))) = _
  rw [show oneVoxelView.adjacent_chunks.getD
      (ChunkRefs.vec3_to_chunk_index ⟨1, 1, 1⟩) airChunk = oneVoxelChunk from rfl]
  rw [h1]
  rw [foldl_congr_id _ _ (fun s t ht => boundaryStepZ_id s t ht) _]
  rw [foldl_congr_id _ _ (fun s t ht => boundaryStepY_id s t ht) _]
  rw [foldl_congr_id _ _ (fun s t ht => boundaryStepX_id s t ht) _]

set_option maxRecDepth 8000 in
/-- C1: (a) for every neighbourhood view whose 27 chunks are all Homogeneous
air, the mesher returns no quads (the `is_all_voxels_same` early exit); and
(b) for the neighbourhood whose center chunk holds exactly one solid voxel
at the interior coordinate `(8,8,8)` with every other voxel of all 27 chunks
air, the mesher returns exactly 6 quads, each with extents 1×1 (both packed
5-bit stretch fields are 1) and carrying the 6 distinct face normals
(packed normal codes `[2,3,0,1,4,5]` = Down, Up, Left, Right, Forward,
Back). -/
theorem c1_meshing_soundness :
    (∀ r : ChunkRefs, r.adjacent_chunks.length = 27 →
      (∀ c ∈ r.adjacent_chunks, c = airChunk) →
      ∀ lod, build_chunk_instance_data r lod = none) ∧
    ((build_chunk_instance_data oneVoxelView Lod.L32).map
        (fun m => m.quads.length) = some 6 ∧
      (build_chunk_instance_data oneVoxelView Lod.L32).map
        (fun m => m.quads.map fun q =>
          ((q.packed_u32 >>> 20) &&& 31, (q.packed_u32 >>> 25) &&& 31)) =
        some [(1, 1), (1, 1), (1, 1), (1, 1), (1, 1), (1, 1)] ∧
      (build_chunk_instance_data oneVoxelView Lod.L32).map
        (fun m => m.quads.map fun q => (q.packed_u32 >>> 15) &&& 7) =
        some [2, 3, 0, 1, 4, 5]) := by
  have hbuild : build_chunk_instance_data oneVoxelView Lod.L32 =
      meshFromAxisCols oneVoxelView Lod.L32
        (add_voxel_to_axis_cols grassBlock 9 9 9 (fun _ _ _ => 0)) := by
    rw [build_chunk_instance_data, buildAxisCols_oneVoxel]
  constructor
  · intro r hlen hair lod
    have hall : r.is_all_voxels_same = true := by
      simp only [ChunkRefs.is_all_voxels_same]
      have h0 : r.adjacent_chunks.getD 0 airChunk = airChunk := by
        have hlt : 0 < r.adjacent_chunks.length := by omega
        rw [List.getD_eq_getElem _ _ hlt]
        exact hair _ (List.getElem_mem hlt)
      rw [h0]
      have hhom : airChunk.is_homogenous = true := rfl
      rw [if_pos hhom]
      rw [List.all_eq_true]
      intro c hc
      rw [hair c hc]
      rfl
    show meshFromAxisCols r lod (buildAxisCols r) = none
    simp [meshFromAxisCols, hall]
  · refine ⟨?_, ?_, ?_⟩ <;> rw [hbuild] <;> decide

/-- Witness for C1's universally quantified part at a concrete all-air
neighbourhood. -/
theorem c1_meshing_soundness_witness :
    build_chunk_instance_data ⟨List.replicate 27 airChunk, ⟨0, 0, 0⟩⟩ Lod.L32 =
      none :=
  c1_meshing_soundness.1 ⟨List.replicate 27 airChunk, ⟨0, 0, 0⟩⟩ (by simp)
    (fun c hc => List.eq_of_mem_replicate hc) Lod.L32

end Talc
